/-
Verification of the bounded concurrent task executor underlying
`src/automation/api_automation.py` (class `APIAutomation`: `__init__`,
`make_request`, `run_async`) and the retry loops of
`src/automation/web_scraper.py` (`scrape_static`, the `fetch` inner
function of `scrape_async`).

Shallow embedding conventions:
- Python exceptions raised by the HTTP transport (or by the selector
  pipeline in the scraper) are modelled as `Except String _` values of an
  injected `transport`/`op` function: `.error msg` is a raised exception
  with message `msg`, `.ok v` a normal return.
- `random.uniform(*self.delay_range)` is modelled as an injected draw
  function `pace : Nat → ℚ` (one draw per attempt); `random.uniform(a, b)`
  guarantees its result lies in `[a, b]` when `a ≤ b`, which theorems take
  as a hypothesis on `pace`.
- Every `await asyncio.sleep` / `time.sleep` and every transport
  invocation is recorded in an event trace, so pacing, backoff and
  invocation counts are observable.
- A Python function that falls off the end of its body returns `None`,
  modelled as `Option.none`.
-/

import Mathlib

namespace HexAutomation

/-- One observable event of a unit execution:
`pacing d` is `await asyncio.sleep(random.uniform(*self.delay_range))`,
`invoke a` is the HTTP transport call made on attempt `a` (0-based),
`backoff d` is `await asyncio.sleep(2 ** attempt)`. -/
inductive Event where
  | pacing (d : ℚ)
  | invoke (a : Nat)
  | backoff (d : ℚ)
deriving DecidableEq, Repr

/-- The pacing delays appearing in a trace, in order. -/
def pacings : List Event → List ℚ
  | [] => []
  | Event.pacing d :: t => d :: pacings t
  | _ :: t => pacings t

/-- The attempt indices at which the transport was invoked, in order. -/
def invokes : List Event → List Nat
  | [] => []
  | Event.invoke a :: t => a :: invokes t
  | _ :: t => invokes t

/-- The backoff delays appearing in a trace, in order. -/
def backoffs : List Event → List ℚ
  | [] => []
  | Event.backoff d :: t => d :: backoffs t
  | _ :: t => backoffs t

/-- The response of a successful HTTP call: `response.status`,
`dict(response.headers)`, and the awaited `response.text()`. -/
structure HttpResponse where
  status : Nat
  headers : List (String × String)
  data : String
deriving DecidableEq, Repr

/-- The dict built on a successful attempt
(`{'url':…, 'status':…, 'headers':…, 'data':…}`,
lines 87-92 / 96-101 / 105-110 / 114-119 of api_automation.py). -/
structure SuccessRecord where
  url : String
  status : Nat
  headers : List (String × String)
  data : String
deriving DecidableEq, Repr

/-- The dict returned after the last failed attempt
(`{'url': url, 'error': str(e)}`, lines 129-132 of api_automation.py).
Its only fields are the url and the stringified exception. -/
structure ErrorRecord where
  url : String
  error : String
deriving DecidableEq, Repr

/-- A value returned by `make_request` when it returns a dict. -/
inductive ApiResult where
  | success (r : SuccessRecord)
  | error (r : ErrorRecord)
deriving DecidableEq, Repr

/-- An endpoint descriptor: `endpoint.get('url')` and
`endpoint.get('method', 'GET')` (headers/params/data are opaque to the
retry logic; they are absorbed into the injected transport). -/
structure Endpoint where
  url : String
  method : Option String
deriving DecidableEq, Repr

/-- Python's `str.upper()` applied to a method name: per-character
uppercasing of the string's characters (the method strings involved are
ASCII). -/
def pyUpper (s : String) : String := ⟨s.data.map Char.toUpper⟩

/-- `method == 'GET' / 'POST' / 'PUT' / 'DELETE'`: the four dispatch
branches of lines 84-119; any other (already upper-cased) method falls to
the `else: raise ValueError(...)` branch of lines 120-121. -/
def supportedMethod (m : String) : Bool :=
  m = "GET" || m = "POST" || m = "PUT" || m = "DELETE"

/-- Body of one `try:` block of `make_request` after the pacing sleep:
dispatch on the upper-cased method. A supported method performs the HTTP
call (`transport a`, which may raise); an unsupported one raises
`ValueError(f"Unsupported HTTP method: {method}")` without calling the
transport. Returns the attempt's outcome together with the invoke events
it produced. -/
def attemptBody (transport : Nat → Except String HttpResponse) (m : String)
    (a : Nat) : Except String HttpResponse × List Event :=
  if supportedMethod m then
    (transport a, [Event.invoke a])
  else
    (Except.error ("Unsupported HTTP method: " ++ m), [])

/-- The `for attempt in range(self.retry_count)` loop of `make_request`
(lines 78-132). `rc` is `self.retry_count`, `attempt` the loop variable,
`fuel` the number of iterations remaining (`rc - attempt`). Each
iteration sleeps a pacing delay, runs the attempt body; on success it
returns the success dict; on an exception it backs off `2 ** attempt` and
continues if `attempt < rc - 1`, else returns the error dict. Falling off
the loop returns Python `None`. -/
def requestLoop (rc : Nat) (transport : Nat → Except String HttpResponse)
    (pace : Nat → ℚ) (url m : String) :
    Nat → Nat → Option ApiResult × List Event
  | _, 0 => (none, [])
  | attempt, fuel + 1 =>
    let body := attemptBody transport m attempt
    let pre := Event.pacing (pace attempt) :: body.2
    match body.1 with
    | Except.ok r =>
      (some (ApiResult.success ⟨url, r.status, r.headers, r.data⟩), pre)
    | Except.error e =>
      if attempt < rc - 1 then
        let rest := requestLoop rc transport pace url m (attempt + 1) fuel
        (rest.1, pre ++ [Event.backoff ((2 : ℚ) ^ attempt)] ++ rest.2)
      else
        (some (ApiResult.error ⟨url, e⟩), pre)

/-- `APIAutomation.__init__` copies configuration values with defaults
and performs no validation (lines 42-48): `concurrency` defaults to 5,
`retry` to 3, `delay_range` to `[1, 3]`. -/
structure RawConfig where
  endpoints : Option (List Endpoint)
  concurrency : Option Int
  retry : Option Int
  delay_range : Option (ℚ × ℚ)

/-- The executor state held on `self` after `__init__`. -/
structure AutomationState where
  endpoints : List Endpoint
  concurrency : Int
  retry_count : Int
  delay_range : ℚ × ℚ

/-- The configuration-error value the specification says construction
should raise on invalid input. -/
inductive ConfigurationError where
  | invalid (msg : String)

/-- `APIAutomation.__init__` (lines 42-48 of api_automation.py): assigns
`self.endpoints = config.get('endpoints', [])`,
`self.concurrency = config.get('concurrency', 5)`,
`self.retry_count = config.get('retry', 3)`,
`self.delay_range = config.get('delay_range', [1, 3])`.
No `raise` statement exists in the constructor, so the result is always
`.ok`. -/
def APIAutomation.init (cfg : RawConfig) :
    Except ConfigurationError AutomationState :=
  Except.ok
    { endpoints := cfg.endpoints.getD []
      concurrency := cfg.concurrency.getD 5
      retry_count := cfg.retry.getD 3
      delay_range := cfg.delay_range.getD (1, 3) }

/-- `make_request(self, endpoint)` (lines 70-132): reads the url, the
upper-cased method (default `'GET'`), then runs the retry loop with
`self.retry_count` iterations (Python `range` of a non-positive count is
empty, hence `Int.toNat`). -/
def make_request (st : AutomationState) (endpoint : Endpoint)
    (transport : Nat → Except String HttpResponse) (pace : Nat → ℚ) :
    Option ApiResult × List Event :=
  let url := endpoint.url
  let m := pyUpper (endpoint.method.getD "GET")
  requestLoop st.retry_count.toNat transport pace url m 0 st.retry_count.toNat

/-- A value returned by the inner `fetch` of `WebScraper.scrape_async`
when it returns a dict: either the scraped data dict (tagged with the
url, lines 109-116 of web_scraper.py) or `{'url': url, 'error': str(e)}`
(line 123). The payload type `α` abstracts the selector-extraction
result. -/
inductive ScrapeOutcome (α : Type) where
  | data (url : String) (d : α)
  | err (url : String) (msg : String)
deriving DecidableEq, Repr

/-- The `for attempt in range(self.retry_count)` loop of
`WebScraper.scrape_static` (lines 68-96 of web_scraper.py). `op a` is the
body of the `try:` block on attempt `a` (HTTP get + parse; may raise).
There is NO pacing sleep in this loop. On an exception the loop backs off
`2 ** attempt` and continues if `attempt < rc - 1`, else it RE-RAISES the
exception (`raise e`, line 96), modelled as `Except.error`. Falling off
the loop (rc = 0) returns Python `None`. -/
def scrapeStaticLoop (rc : Nat) (op : Nat → Except String α) :
    Nat → Nat → Except String (Option α) × List Event
  | _, 0 => (Except.ok none, [])
  | attempt, fuel + 1 =>
    match op attempt with
    | Except.ok d => (Except.ok (some d), [Event.invoke attempt])
    | Except.error e =>
      if attempt < rc - 1 then
        let rest := scrapeStaticLoop rc op (attempt + 1) fuel
        (rest.1,
          Event.invoke attempt :: Event.backoff ((2 : ℚ) ^ attempt) :: rest.2)
      else
        (Except.error e, [Event.invoke attempt])

/-- `WebScraper.scrape_static(self, url)`: runs the retry loop from
attempt 0; the result is a raised exception (`.error`), the scraped data
(`.ok (some d)`), or Python `None` when `retry_count` is not positive
(`.ok none`). -/
def scrape_static (rc : Nat) (op : Nat → Except String α) :
    Except String (Option α) × List Event :=
  scrapeStaticLoop rc op 0 rc

/-- The `for attempt in range(self.retry_count)` loop of the inner
`fetch` of `WebScraper.scrape_async` (lines 100-123 of web_scraper.py).
There is NO pacing sleep: the only sleeps are the `2 ** attempt` backoffs
between retries. On the last failed attempt it returns the error dict
(line 123) instead of raising; falling off the loop returns `None`. -/
def scrapeFetchLoop (rc : Nat) (op : Nat → Except String α) (url : String) :
    Nat → Nat → Option (ScrapeOutcome α) × List Event
  | _, 0 => (none, [])
  | attempt, fuel + 1 =>
    match op attempt with
    | Except.ok d => (some (ScrapeOutcome.data url d), [Event.invoke attempt])
    | Except.error e =>
      if attempt < rc - 1 then
        let rest := scrapeFetchLoop rc op url (attempt + 1) fuel
        (rest.1,
          Event.invoke attempt :: Event.backoff ((2 : ℚ) ^ attempt) :: rest.2)
      else
        (some (ScrapeOutcome.err url e), [Event.invoke attempt])

/-- The inner `fetch(session, url)` of `WebScraper.scrape_async`. -/
def scrapeFetch (rc : Nat) (op : Nat → Except String α) (url : String) :
    Option (ScrapeOutcome α) × List Event :=
  scrapeFetchLoop rc op url 0 rc

/-! ### The batch scheduler of `run_async`

`run_async` (lines 134-158) creates `asyncio.Semaphore(self.concurrency)`,
wraps each endpoint's `make_request` in `bounded_request` (acquire the
semaphore, run, release), launches one task per endpoint, and
`asyncio.gather` collects the return values in task order, regardless of
completion order. We model the cooperative scheduler as a transition
system: each task is `pending` (not yet admitted by the semaphore),
`executing` (inside `async with semaphore`), or `done`; `gather`'s result
array is the buffer, written once when a task finishes. The interleaving
of steps is arbitrary, so every completion order is covered. -/

/-- Phase of one task of `run_async`: `pending` = waiting on
`semaphore.acquire`, `executing` = inside `async with semaphore` running
`make_request`, `done` = returned (semaphore released, result recorded by
`gather`). -/
inductive TaskPhase where
  | pending
  | executing
  | done
deriving DecidableEq, Repr

/-- Scheduler state: per-task phases (index-aligned with the endpoint
list), `gather`'s result buffer (index-aligned, `none` = not yet
completed), and the semaphore's available-permit count. -/
structure SchedState (α : Type) where
  phases : List TaskPhase
  buf : List (Option α)
  avail : Nat
deriving DecidableEq, Repr

/-- Initial scheduler state for a batch of `n` tasks under
`asyncio.Semaphore(cap)`: all tasks pending, buffer empty (all `none`),
all permits available. -/
def initSched (α : Type) (n cap : Nat) : SchedState α :=
  ⟨List.replicate n TaskPhase.pending, List.replicate n none, cap⟩

/-- One scheduler step. `start i`: task `i` passes `semaphore.acquire`
(needs a free permit) and begins `make_request`. `finish i`: task `i`'s
`make_request` returns `outcome i`; the semaphore is released and
`gather` records the value at index `i`. -/
inductive SchedStep (outcome : Nat → α) :
    SchedState α → SchedState α → Prop where
  | start (s : SchedState α) (i : Nat)
      (hp : s.phases[i]? = some TaskPhase.pending) (ha : 0 < s.avail) :
      SchedStep outcome s
        ⟨s.phases.set i TaskPhase.executing, s.buf, s.avail - 1⟩
  | finish (s : SchedState α) (i : Nat)
      (hp : s.phases[i]? = some TaskPhase.executing) :
      SchedStep outcome s
        ⟨s.phases.set i TaskPhase.done, s.buf.set i (some (outcome i)),
          s.avail + 1⟩

/-- Reachability of a scheduler state by an arbitrary interleaving. -/
def SchedReachable (outcome : Nat → α) (s t : SchedState α) : Prop :=
  Relation.ReflTransGen (SchedStep outcome) s t

/-- The batch is complete: every task reached a terminal phase
(`gather` returns only then). -/
def AllDone (s : SchedState α) : Prop :=
  ∀ p ∈ s.phases, p = TaskPhase.done

/-- Number of tasks currently inside `async with semaphore`. -/
def executingCount (s : SchedState α) : Nat :=
  s.phases.countP (fun p => decide (p = TaskPhase.executing))

/-- The return value `make_request` produces for endpoint `i` of the
batch (what `bounded_request(endpoint)` returns and `gather` stores at
index `i`). `transport i` / `pace i` are the transport and pacing draws
of task `i`. -/
def itemOutcome (st : AutomationState)
    (transport : Nat → Nat → Except String HttpResponse)
    (pace : Nat → Nat → ℚ) (i : Nat) : Option ApiResult :=
  (make_request st (st.endpoints.getD i ⟨"", none⟩) (transport i) (pace i)).1

/-- The result-processing loop of `run_async` (lines 150-156): each
gathered value is appended to `processed_results` in order. (The
`isinstance(result, Exception)` branch converts an exception object in
the gathered list into an error dict; `make_request` never raises — its
body is one all-catching `try/except` — so gathered values are plain
return values and are appended unchanged.) -/
def processResults (results : List (Option ApiResult)) :
    List (Option ApiResult) :=
  results.foldl (fun acc r => acc ++ [r]) []

/-- What `gather` has collected once the batch is complete: the buffer
entries in index order. -/
def gatherValues (s : SchedState α) : List α :=
  s.buf.reduceOption

/-! ### Invariant definitions and expected traces -/

/-- Semaphore invariant of `run_async`: available permits plus tasks
inside `async with semaphore` always total the semaphore's capacity. -/
def SemInv {α : Type} (cap : Nat) (s : SchedState α) : Prop :=
  s.avail + executingCount s = cap

/-- Buffer invariant of `run_async`: phase and buffer lists keep the
batch's length; a finished task's slot holds its outcome, an unfinished
task's slot is still empty. -/
def BufInv {α : Type} (outcome : Nat → α) (n : Nat) (s : SchedState α) : Prop :=
  s.phases.length = n ∧ s.buf.length = n ∧
  ∀ i : Nat, i < n →
    ((s.phases[i]? = some TaskPhase.done → s.buf[i]? = some (some (outcome i))) ∧
     (s.phases[i]? ≠ some TaskPhase.done → s.buf[i]? = some none))

/-- The trace of `n` consecutive failing attempts of `make_request`
starting at attempt `a`, each followed by its backoff: pacing sleep,
transport call, `2 ** attempt` backoff sleep. -/
def attemptsTrace (pace : Nat → ℚ) : Nat → Nat → List Event
  | _, 0 => []
  | a, n + 1 =>
    Event.pacing (pace a) :: Event.invoke a :: Event.backoff ((2 : ℚ) ^ a) ::
      attemptsTrace pace (a + 1) n

/-- The trace of `n` consecutive attempts of `make_request` on an
unsupported method starting at attempt `a`: pacing sleep, then the
`ValueError` (no transport call), then the backoff sleep. -/
def unsupportedTrace (pace : Nat → ℚ) : Nat → Nat → List Event
  | _, 0 => []
  | a, n + 1 =>
    Event.pacing (pace a) :: Event.backoff ((2 : ℚ) ^ a) ::
      unsupportedTrace pace (a + 1) n

/-- Decides that in a trace every transport invocation is immediately
preceded by a pacing sleep whose duration lies in `[lo, hi]` — the
"pacing before every attempt" discipline. -/
def pacedList (lo hi : ℚ) : List Event → Bool
  | [] => true
  | Event.invoke _ :: _ => false
  | Event.pacing d :: Event.invoke _ :: t =>
    decide (lo ≤ d) && decide (d ≤ hi) && pacedList lo hi t
  | Event.pacing _ :: t => pacedList lo hi t
  | Event.backoff _ :: t => pacedList lo hi t

/-- The record `r` carries the count `n` in one of its components (the
error dict of `make_request` has exactly the string-valued fields
`url` and `error`, so carrying an attempt count means one of them is the
rendering of that number). -/
def ErrorRecord.carriesCount (r : ErrorRecord) (n : Nat) : Prop :=
  r.url = toString n ∨ r.error = toString n

/-! ### Concrete witness inputs -/

/-- A concrete successful HTTP response. -/
def wResp : HttpResponse := ⟨200, [("content-type", "text/html")], "ok"⟩

/-- A transport whose call always raises. -/
def wFailT : Nat → Except String HttpResponse :=
  fun _ => Except.error "boom"

/-- A transport that fails on attempt 0 and succeeds from attempt 1 on. -/
def wRetryT : Nat → Except String HttpResponse :=
  fun a => if a < 1 then Except.error "boom" else Except.ok wResp

/-- A transport that always succeeds. -/
def wOkT : Nat → Except String HttpResponse :=
  fun _ => Except.ok wResp

/-- A constant in-range pacing draw. -/
def wPace : Nat → ℚ := fun _ => 2

/-- A concrete GET endpoint. -/
def wEp : Endpoint := ⟨"u", some "GET"⟩

/-- A concrete PATCH endpoint (unsupported method). -/
def wEpPatch : Endpoint := ⟨"u", some "PATCH"⟩

/-- Executor state with one endpoint and `retry_count = n`. -/
def wSt (n : Int) : AutomationState := ⟨[wEp], 2, n, (1, 3)⟩

/-- A scraper operation (payload type `String`) that always raises. -/
def wFailOp : Nat → Except String String :=
  fun _ => Except.error "boom"

/-- Per-task transport for the batch witness: task 0 succeeds at once. -/
def wBatchT : Nat → Nat → Except String HttpResponse :=
  fun _ _ => Except.ok wResp

/-- Per-task pacing draws for the batch witness. -/
def wBatchPace : Nat → Nat → ℚ := fun _ _ => 2

/-- State for the batch witness: one endpoint, concurrency 1, retry 1. -/
def wBatchSt : AutomationState := ⟨[wEp], 1, 1, (1, 3)⟩

/-- The outcome function of the batch witness. -/
def wOutcome : Nat → Option ApiResult :=
  itemOutcome wBatchSt wBatchT wBatchPace

/-! ### Helper lemmas -/

theorem pacings_append (s t : List Event) :
    pacings (s ++ t) = pacings s ++ pacings t := by
  induction s with
  | nil => rfl
  | cons e s ih => cases e <;> simp [pacings, ih]

theorem invokes_append (s t : List Event) :
    invokes (s ++ t) = invokes s ++ invokes t := by
  induction s with
  | nil => rfl
  | cons e s ih => cases e <;> simp [invokes, ih]

theorem backoffs_append (s t : List Event) :
    backoffs (s ++ t) = backoffs s ++ backoffs t := by
  induction s with
  | nil => rfl
  | cons e s ih => cases e <;> simp [backoffs, ih]

theorem invokes_attemptsTrace (pace : Nat → ℚ) (n a : Nat) :
    invokes (attemptsTrace pace a n) = List.range' a n := by
  induction n generalizing a with
  | zero => rfl
  | succ k ih => simp [attemptsTrace, invokes, List.range'_succ, ih]

theorem pacings_attemptsTrace (pace : Nat → ℚ) (n a : Nat) :
    pacings (attemptsTrace pace a n) = (List.range' a n).map pace := by
  induction n generalizing a with
  | zero => rfl
  | succ k ih => simp [attemptsTrace, pacings, List.range'_succ, ih]

theorem backoffs_attemptsTrace (pace : Nat → ℚ) (n a : Nat) :
    backoffs (attemptsTrace pace a n)
      = (List.range' a n).map (fun i => (2 : ℚ) ^ i) := by
  induction n generalizing a with
  | zero => rfl
  | succ k ih => simp [attemptsTrace, backoffs, List.range'_succ, ih]

theorem invokes_unsupportedTrace (pace : Nat → ℚ) (n a : Nat) :
    invokes (unsupportedTrace pace a n) = [] := by
  induction n generalizing a with
  | zero => rfl
  | succ k ih => simp [unsupportedTrace, invokes, ih]

theorem pacings_unsupportedTrace (pace : Nat → ℚ) (n a : Nat) :
    pacings (unsupportedTrace pace a n) = (List.range' a n).map pace := by
  induction n generalizing a with
  | zero => rfl
  | succ k ih => simp [unsupportedTrace, pacings, List.range'_succ, ih]

theorem backoffs_unsupportedTrace (pace : Nat → ℚ) (n a : Nat) :
    backoffs (unsupportedTrace pace a n)
      = (List.range' a n).map (fun i => (2 : ℚ) ^ i) := by
  induction n generalizing a with
  | zero => rfl
  | succ k ih => simp [unsupportedTrace, backoffs, List.range'_succ, ih]

theorem processResults_eq (l : List (Option ApiResult)) :
    processResults l = l := by
  have h : ∀ (l acc : List (Option ApiResult)),
      l.foldl (fun acc r => acc ++ [r]) acc = acc ++ l := by
    intro l
    induction l with
    | nil => simp
    | cons x xs ih => intro acc; simp [List.foldl, ih]
  simpa [processResults] using h l []

/-! ### Scheduler invariants -/

/-- Setting one list entry changes `countP` by the contribution of the
new element minus that of the old one (stated additively). -/
theorem countP_set_add {α : Type} (p : α → Bool) (l : List α) (i : Nat)
    (a b : α) (h : l[i]? = some a) :
    (l.set i b).countP p + (if p a then 1 else 0)
      = l.countP p + (if p b then 1 else 0) := by
  induction l generalizing i with
  | nil => simp at h
  | cons x xs ih =>
    cases i with
    | zero =>
      simp only [List.getElem?_cons_zero, Option.some_inj] at h
      subst h
      simp only [List.set_cons_zero, List.countP_cons]
      omega
    | succ n =>
      simp only [List.getElem?_cons_succ] at h
      simp only [List.set_cons_succ, List.countP_cons]
      have := ih n h
      omega

theorem semInv_init (α : Type) (n cap : Nat) :
    SemInv cap (initSched α n cap) := by
  simp [SemInv, initSched, executingCount, List.countP_eq_zero]

theorem semInv_step {α : Type} {outcome : Nat → α} {s t : SchedState α}
    {cap : Nat} (hst : SchedStep outcome s t) (hinv : SemInv cap s) :
    SemInv cap t := by
  cases hst with
  | start i hp ha =>
    have hc := countP_set_add (fun p => decide (p = TaskPhase.executing))
      s.phases i TaskPhase.pending TaskPhase.executing hp
    simp only [SemInv, executingCount] at *
    simp only [decide_eq_true_eq] at hc
    simp at hc
    omega
  | finish i hp =>
    have hc := countP_set_add (fun p => decide (p = TaskPhase.executing))
      s.phases i TaskPhase.executing TaskPhase.done hp
    simp only [SemInv, executingCount] at *
    simp only [decide_eq_true_eq] at hc
    simp at hc
    omega

theorem semInv_reachable {α : Type} {outcome : Nat → α}
    {s t : SchedState α} {cap : Nat}
    (hr : SchedReachable outcome s t) (hinv : SemInv cap s) : SemInv cap t := by
  induction hr with
  | refl => exact hinv
  | tail _ hstep ih => exact semInv_step hstep ih

theorem bufInv_init (α : Type) (outcome : Nat → α) (n cap : Nat) :
    BufInv outcome n (initSched α n cap) := by
  refine ⟨by simp [initSched], by simp [initSched], fun i hi => ?_⟩
  constructor
  · intro hdone
    simp [initSched, List.getElem?_replicate, hi] at hdone
  · intro _
    simp [initSched, List.getElem?_replicate, hi]

theorem bufInv_step {α : Type} {outcome : Nat → α} {s t : SchedState α}
    {n : Nat} (hst : SchedStep outcome s t) (hinv : BufInv outcome n s) :
    BufInv outcome n t := by
  obtain ⟨hl, hb, hslot⟩ := hinv
  cases hst with
  | start i hp ha =>
    refine ⟨by simpa using hl, hb, fun j hj => ?_⟩
    by_cases hij : i = j
    · subst hij
      have hilen : i < s.phases.length := (List.getElem?_eq_some.mp hp).1
      constructor
      · intro hdone
        rw [List.getElem?_set_self hilen] at hdone
        simp at hdone
      · intro _
        exact (hslot i hj).2 (by simp [hp])
    · constructor
      · intro hdone
        rw [List.getElem?_set_ne hij] at hdone
        exact (hslot j hj).1 hdone
      · intro hnd
        rw [List.getElem?_set_ne hij] at hnd
        exact (hslot j hj).2 hnd
  | finish i hp =>
    have hilen : i < s.phases.length := (List.getElem?_eq_some.mp hp).1
    refine ⟨by simpa using hl, by simpa using hb, fun j hj => ?_⟩
    by_cases hij : i = j
    · subst hij
      constructor
      · intro _
        rw [List.getElem?_set_self (by omega : i < s.buf.length)]
      · intro hnd
        rw [List.getElem?_set_self hilen] at hnd
        simp at hnd
    · constructor
      · intro hdone
        rw [List.getElem?_set_ne hij] at hdone
        rw [List.getElem?_set_ne hij]
        exact (hslot j hj).1 hdone
      · intro hnd
        rw [List.getElem?_set_ne hij] at hnd
        rw [List.getElem?_set_ne hij]
        exact (hslot j hj).2 hnd

theorem bufInv_reachable {α : Type} {outcome : Nat → α}
    {s t : SchedState α} {n : Nat}
    (hr : SchedReachable outcome s t) (hinv : BufInv outcome n s) :
    BufInv outcome n t := by
  induction hr with
  | refl => exact hinv
  | tail _ hstep ih => exact bufInv_step hstep ih

/-- A completed reachable batch has its buffer fully and order-correctly
filled: slot `i` holds `outcome i`. -/
theorem buf_of_allDone {α : Type} {outcome : Nat → α} {s : SchedState α}
    {n cap : Nat} (hr : SchedReachable outcome (initSched α n cap) s)
    (hdone : AllDone s) :
    s.buf = (List.range n).map (fun i => some (outcome i)) := by
  obtain ⟨hl, hb, hslot⟩ := bufInv_reachable hr (bufInv_init α outcome n cap)
  refine List.ext_getElem? fun i => ?_
  by_cases hi : i < n
  · have hph : s.phases[i]? = some TaskPhase.done := by
      have hlen : i < s.phases.length := by omega
      have hmem : s.phases[i] ∈ s.phases := List.getElem_mem hlen
      have := hdone _ hmem
      rw [List.getElem?_eq_getElem hlen, this]
    rw [(hslot i hi).1 hph]
    rw [List.getElem?_map, List.getElem?_range hi]
    rfl
  · rw [List.getElem?_eq_none (by omega : s.buf.length ≤ i),
      List.getElem?_eq_none (by simp; omega)]

/-! ### Retry-loop lemmas -/

/-- With at least one iteration left (and the loop invariant
`attempt + fuel = rc` that `make_request` establishes), the loop always
returns a dict, never `None`. -/
theorem requestLoop_isSome (rc : Nat) (transport : Nat → Except String HttpResponse)
    (pace : Nat → ℚ) (url m : String) :
    ∀ fuel a, a + fuel = rc → 1 ≤ fuel →
      ((requestLoop rc transport pace url m a fuel).1).isSome = true := by
  intro fuel
  induction fuel with
  | zero => intro a _ h; omega
  | succ n ih =>
    intro a hsum _
    cases hb : (attemptBody transport m a).1 with
    | ok r => simp [requestLoop, hb]
    | error e =>
      by_cases hc : a < rc - 1
      · have hn : 1 ≤ n := by omega
        have := ih (a + 1) (by omega) hn
        simp [requestLoop, hb, hc, this]
      · simp [requestLoop, hb, hc]

/-- Successful run: if the transport fails on attempts `a ≤ i < j` and
succeeds on attempt `j < rc`, the loop (from attempt `a`, supported
method) returns the success dict built from attempt `j`'s response, with
the trace of the `j - a` failed attempts followed by the pacing and
invocation of the successful one — and nothing after it. -/
theorem requestLoop_success (rc : Nat) (transport : Nat → Except String HttpResponse)
    (pace : Nat → ℚ) (url m : String) (e : Nat → String) (j : Nat)
    (resp : HttpResponse) (hsm : supportedMethod m = true)
    (hfail : ∀ i, i < j → transport i = Except.error (e i))
    (hsucc : transport j = Except.ok resp) :
    ∀ fuel a, a + fuel = rc → a ≤ j → j < rc →
      requestLoop rc transport pace url m a fuel =
        (some (ApiResult.success ⟨url, resp.status, resp.headers, resp.data⟩),
          attemptsTrace pace a (j - a)
            ++ [Event.pacing (pace j), Event.invoke j]) := by
  intro fuel
  induction fuel with
  | zero => intro a hsum haj hj; omega
  | succ n ih =>
    intro a hsum haj hj
    by_cases hja : a = j
    · subst hja
      simp [requestLoop, attemptBody, hsm, hsucc, attemptsTrace, Nat.sub_self]
    · have haj' : a < j := by omega
      have hta : transport a = Except.error (e a) := hfail a haj'
      have hc : a < rc - 1 := by omega
      have hrest := ih (a + 1) (by omega) (by omega) hj
      have hstep : j - a = (j - (a + 1)) + 1 := by omega
      simp [requestLoop, attemptBody, hsm, hta, hc, hrest, hstep, attemptsTrace]

/-- Exhausted run: if the transport raises on every attempt, the loop
(from attempt `a` with `a + fuel = rc`, at least one iteration,
supported method) returns the error dict carrying the LAST attempt's
cause, with the trace of `fuel - 1` backed-off failures followed by the
final pacing and invocation — and no backoff after the final attempt. -/
theorem requestLoop_exhaust (rc : Nat) (transport : Nat → Except String HttpResponse)
    (pace : Nat → ℚ) (url m : String) (e : Nat → String)
    (hsm : supportedMethod m = true)
    (hfail : ∀ i, transport i = Except.error (e i)) :
    ∀ fuel a, a + fuel = rc → 1 ≤ fuel →
      requestLoop rc transport pace url m a fuel =
        (some (ApiResult.error ⟨url, e (rc - 1)⟩),
          attemptsTrace pace a (fuel - 1)
            ++ [Event.pacing (pace (rc - 1)), Event.invoke (rc - 1)]) := by
  intro fuel
  induction fuel with
  | zero => intro a _ h; omega
  | succ n ih =>
    intro a hsum _
    rcases Nat.eq_zero_or_pos n with hn | hn
    · subst hn
      have ha : a = rc - 1 := by omega
      have hc : ¬ a < rc - 1 := by omega
      subst ha
      simp [requestLoop, attemptBody, hsm, hfail (rc - 1), hc, attemptsTrace]
    · have hc : a < rc - 1 := by omega
      have hrest := ih (a + 1) (by omega) hn
      have hstep : n + 1 - 1 = (n - 1) + 1 := by omega
      simp [requestLoop, attemptBody, hsm, hfail a, hc, hrest, hstep,
        attemptsTrace]

/-- Unsupported-method run: every attempt raises the `ValueError` before
calling the transport; the loop retries the full budget and returns the
error dict carrying the unsupported-method message. -/
theorem requestLoop_unsupported (rc : Nat)
    (transport : Nat → Except String HttpResponse) (pace : Nat → ℚ)
    (url m : String) (hsm : supportedMethod m = false) :
    ∀ fuel a, a + fuel = rc → 1 ≤ fuel →
      requestLoop rc transport pace url m a fuel =
        (some (ApiResult.error ⟨url, "Unsupported HTTP method: " ++ m⟩),
          unsupportedTrace pace a (fuel - 1)
            ++ [Event.pacing (pace (rc - 1))]) := by
  intro fuel
  induction fuel with
  | zero => intro a _ h; omega
  | succ n ih =>
    intro a hsum _
    rcases Nat.eq_zero_or_pos n with hn | hn
    · subst hn
      have ha : a = rc - 1 := by omega
      have hc : ¬ a < rc - 1 := by omega
      subst ha
      simp [requestLoop, attemptBody, hsm, hc, unsupportedTrace]
    · have hc : a < rc - 1 := by omega
      have hrest := ih (a + 1) (by omega) hn
      have hstep : n + 1 - 1 = (n - 1) + 1 := by omega
      simp [requestLoop, attemptBody, hsm, hc, hrest, hstep,
        unsupportedTrace]

/-- A loop with at least one iteration records at least one pacing sleep
(every iteration begins with one). -/
theorem one_le_pacings_len (rc : Nat)
    (transport : Nat → Except String HttpResponse) (pace : Nat → ℚ)
    (url m : String) (a n : Nat) :
    1 ≤ (pacings (requestLoop rc transport pace url m a (n + 1)).2).length := by
  cases hb : (attemptBody transport m a).1 with
  | ok r => simp [requestLoop, hb, pacings]
  | error e =>
    by_cases hc : a < rc - 1
    · simp [requestLoop, hb, hc, pacings]
    · simp [requestLoop, hb, hc, pacings]

/-- For every transport behavior, the backoff sleeps of a loop run are
exactly `2 ^ i` for `i` ranging over all attempts but the last — one
between each consecutive pair of attempts, none after the final one. -/
theorem requestLoop_backoffs (rc : Nat)
    (transport : Nat → Except String HttpResponse) (pace : Nat → ℚ)
    (url m : String) :
    ∀ fuel a, a + fuel = rc →
      backoffs (requestLoop rc transport pace url m a fuel).2 =
        (List.range' a
            ((pacings (requestLoop rc transport pace url m a fuel).2).length - 1)).map
          (fun i => (2 : ℚ) ^ i) := by
  intro fuel
  induction fuel with
  | zero => intro a _; simp [requestLoop, backoffs, pacings]
  | succ n ih =>
    intro a hsum
    cases hb : (attemptBody transport m a).1 with
    | ok r =>
      have h2 : backoffs (attemptBody transport m a).2 = [] := by
        unfold attemptBody
        split <;> simp [backoffs]
      have h3 : pacings (attemptBody transport m a).2 = [] := by
        unfold attemptBody
        split <;> simp [pacings]
      simp [requestLoop, hb, backoffs, pacings, h2, h3]
    | error e =>
      have h2 : backoffs (attemptBody transport m a).2 = [] := by
        unfold attemptBody
        split <;> simp [backoffs]
      have h3 : pacings (attemptBody transport m a).2 = [] := by
        unfold attemptBody
        split <;> simp [pacings]
      by_cases hc : a < rc - 1
      · have hn1 : n = (n - 1) + 1 := by omega
        have hlen := one_le_pacings_len rc transport pace url m (a + 1) (n - 1)
        rw [← hn1] at hlen
        have hrest := ih (a + 1) (by omega)
        simp only [requestLoop, hb, hc, if_true, backoffs, pacings,
          backoffs_append, pacings_append, h2, h3, List.cons_append,
          List.nil_append, List.length_cons, hrest]
        have hL :
            (pacings (requestLoop rc transport pace url m (a + 1) n).2).length
              = ((pacings (requestLoop rc transport pace url m (a + 1) n).2).length - 1)
                + 1 := by
          omega
        rw [show ∀ L : Nat, L + 1 - 1 = L from fun L => rfl]
        rw [hL, List.range'_succ]
        simp [backoffs]
      · simp [requestLoop, hb, hc, backoffs, pacings, h2, h3]

/-- For every transport behavior, every transport invocation in a loop
run is immediately preceded by a pacing sleep drawn by `pace`, and the
drawn durations lie in `[lo, hi]` whenever the draws do. -/
theorem requestLoop_paced (rc : Nat)
    (transport : Nat → Except String HttpResponse) (pace : Nat → ℚ)
    (url m : String) (lo hi : ℚ) (hp : ∀ i, lo ≤ pace i ∧ pace i ≤ hi) :
    ∀ fuel a, pacedList lo hi (requestLoop rc transport pace url m a fuel).2 = true := by
  intro fuel
  induction fuel with
  | zero => intro a; simp [requestLoop, pacedList]
  | succ n ih =>
    intro a
    cases hs : supportedMethod m with
    | true =>
      cases ht : transport a with
      | ok r =>
        simp [requestLoop, attemptBody, hs, ht, pacedList, (hp a).1, (hp a).2]
      | error e =>
        by_cases hc : a < rc - 1
        · simp [requestLoop, attemptBody, hs, ht, hc, pacedList,
            (hp a).1, (hp a).2, ih (a + 1)]
        · simp [requestLoop, attemptBody, hs, ht, hc, pacedList,
            (hp a).1, (hp a).2]
    | false =>
      by_cases hc : a < rc - 1
      · simp [requestLoop, attemptBody, hs, hc, pacedList, ih (a + 1)]
      · simp [requestLoop, attemptBody, hs, hc, pacedList]

theorem reduceOption_map_some {α : Type} (l : List α) :
    (l.map some).reduceOption = l := by
  induction l with
  | nil => rfl
  | cons x xs ih => simp [List.reduceOption_cons_of_some, ih]

/-! ### Claim theorems -/

/-- C1: for every batch of size N, every semaphore capacity and every
interleaving of the cooperative scheduler that completes, `run_async`
produces a result list of exactly N entries whose entry `i` is the value
`make_request` produced for endpoint `i` — order-aligned with the input
regardless of completion order (for N = 0 the result is empty). -/
theorem c1_batch_order_aligned (st : AutomationState)
    (transport : Nat → Nat → Except String HttpResponse)
    (pace : Nat → Nat → ℚ) (cap : Nat) (s : SchedState (Option ApiResult))
    (hr : SchedReachable (itemOutcome st transport pace)
      (initSched (Option ApiResult) st.endpoints.length cap) s)
    (hdone : AllDone s) :
    (processResults (gatherValues s)).length = st.endpoints.length ∧
    ∀ i : Nat, i < st.endpoints.length →
      (processResults (gatherValues s))[i]?
        = some (itemOutcome st transport pace i) := by
  have hbuf := buf_of_allDone hr hdone
  have hg : gatherValues s
      = (List.range st.endpoints.length).map (itemOutcome st transport pace) := by
    rw [gatherValues, hbuf]
    rw [show (List.range st.endpoints.length).map
          (fun i => some (itemOutcome st transport pace i))
        = ((List.range st.endpoints.length).map
            (itemOutcome st transport pace)).map some by
      simp [List.map_map]]
    exact reduceOption_map_some _
  rw [processResults_eq, hg]
  constructor
  · simp
  · intro i hi
    simp [List.getElem?_map, List.getElem?_range hi]

/-- Witness for C1: a batch of one endpoint run to completion under
capacity 1 (start task 0, finish task 0). -/
theorem c1_batch_order_aligned_witness :
    (processResults (gatherValues
        (⟨[TaskPhase.done], [some (wOutcome 0)], 1⟩
          : SchedState (Option ApiResult)))).length = 1 ∧
    ∀ i : Nat, i < 1 →
      (processResults (gatherValues
          (⟨[TaskPhase.done], [some (wOutcome 0)], 1⟩
            : SchedState (Option ApiResult))))[i]? = some (wOutcome i) := by
  have hstep1 : SchedStep wOutcome (initSched (Option ApiResult) 1 1)
      ⟨[TaskPhase.executing], [none], 0⟩ :=
    SchedStep.start (initSched (Option ApiResult) 1 1) 0 rfl (by decide)
  have hstep2 : SchedStep wOutcome
      (⟨[TaskPhase.executing], [none], 0⟩ : SchedState (Option ApiResult))
      ⟨[TaskPhase.done], [some (wOutcome 0)], 1⟩ :=
    SchedStep.finish ⟨[TaskPhase.executing], [none], 0⟩ 0 rfl
  have hr : SchedReachable wOutcome (initSched (Option ApiResult) 1 1)
      ⟨[TaskPhase.done], [some (wOutcome 0)], 1⟩ :=
    Relation.ReflTransGen.tail (Relation.ReflTransGen.single hstep1) hstep2
  have hdone : AllDone
      (⟨[TaskPhase.done], [some (wOutcome 0)], 1⟩
        : SchedState (Option ApiResult)) := by
    intro p hp
    simpa using hp
  exact c1_batch_order_aligned wBatchSt wBatchT wBatchPace 1 _ hr hdone

/-- C8: at no point of any run does the number of tasks inside
`async with semaphore` exceed the semaphore's capacity, for every
capacity ≥ 1 and every batch at least as large as the capacity. -/
theorem c8_concurrency_bounded (α : Type) (outcome : Nat → α) (n cap : Nat)
    (hcap : 1 ≤ cap) (hn : cap ≤ n) (s : SchedState α)
    (hr : SchedReachable outcome (initSched α n cap) s) :
    executingCount s ≤ cap := by
  have h := semInv_reachable hr (semInv_init α n cap)
  simp only [SemInv] at h
  omega

/-- Witness for C8: capacity 1, batch of 1, after admitting task 0. -/
theorem c8_concurrency_bounded_witness :
    1 ≤ 1 ∧
    executingCount
      (⟨[TaskPhase.executing], [none], 0⟩ : SchedState (Option ApiResult)) ≤ 1 := by
  have hstep1 : SchedStep wOutcome (initSched (Option ApiResult) 1 1)
      ⟨[TaskPhase.executing], [none], 0⟩ :=
    SchedStep.start (initSched (Option ApiResult) 1 1) 0 rfl (by decide)
  exact ⟨le_refl 1,
    c8_concurrency_bounded (Option ApiResult) wOutcome 1 1 (le_refl 1) (le_refl 1)
      _ (Relation.ReflTransGen.single hstep1)⟩

/-- C2 (amended): in the API unit executor `make_request`, a fault raised
by the operation on every attempt is caught and classified as that
attempt's failure; with at least one attempt allowed the caller receives
an error record — never a raised exception. (The claim as stated, taken
over the static scraper too, is false: see the counterexample, where
`scrape_static` re-raises the final attempt's fault.) -/
theorem c2_fault_contained (st : AutomationState) (ep : Endpoint)
    (transport : Nat → Except String HttpResponse) (pace : Nat → ℚ)
    (e : Nat → String) (hf : ∀ i, transport i = Except.error (e i))
    (hrc : 1 ≤ st.retry_count) :
    ∃ r : ErrorRecord,
      (make_request st ep transport pace).1 = some (ApiResult.error r) := by
  have hrc' : 1 ≤ st.retry_count.toNat := by omega
  cases hsm : supportedMethod (pyUpper (ep.method.getD "GET")) with
  | true =>
    refine ⟨⟨ep.url, e (st.retry_count.toNat - 1)⟩, ?_⟩
    have h := requestLoop_exhaust st.retry_count.toNat transport pace ep.url
      (pyUpper (ep.method.getD "GET")) e hsm hf st.retry_count.toNat 0
      (by omega) hrc'
    simp [make_request, h]
  | false =>
    refine ⟨⟨ep.url, "Unsupported HTTP method: " ++ pyUpper (ep.method.getD "GET")⟩, ?_⟩
    have h := requestLoop_unsupported st.retry_count.toNat transport pace ep.url
      (pyUpper (ep.method.getD "GET")) hsm st.retry_count.toNat 0
      (by omega) hrc'
    simp [make_request, h]

/-- Witness for C2: one retry, a transport that always raises. -/
theorem c2_fault_contained_witness :
    (∀ i : Nat, wFailT i = Except.error "boom") ∧ (1 : Int) ≤ (wSt 1).retry_count ∧
    ∃ r : ErrorRecord,
      (make_request (wSt 1) wEp wFailT wPace).1 = some (ApiResult.error r) :=
  ⟨fun _ => rfl, by decide,
    c2_fault_contained (wSt 1) wEp wFailT wPace (fun _ => "boom")
      (fun _ => rfl) (by decide)⟩

/-- Counterexample to C2 as stated: `scrape_static` (cited by the claim)
re-raises the final attempt's fault to its caller after exhausting
retries — the caller receives a raised exception, not an error record:
with one attempt and an always-raising operation, the result is the
propagated exception `"boom"` and one attempt was made. -/
theorem c2_counterexample :
    (scrape_static 1 wFailOp).1 = Except.error "boom" ∧
    (scrape_static 1 wFailOp).2 = [Event.invoke 0] :=
  ⟨rfl, rfl⟩

/-- C3: if the operation fails on the first k-1 attempts and succeeds on
attempt k (1 ≤ k ≤ retryLimit), the outcome is the success record built
from that attempt's payload and the operation is invoked exactly on
attempts 0..k-1 — exactly k times, none after the success. -/
theorem c3_success_at_k (st : AutomationState) (ep : Endpoint)
    (transport : Nat → Except String HttpResponse) (pace : Nat → ℚ)
    (e : Nat → String) (k : Nat) (resp : HttpResponse)
    (hsm : supportedMethod (pyUpper (ep.method.getD "GET")) = true)
    (hk1 : 1 ≤ k) (hk2 : k ≤ st.retry_count.toNat)
    (hfail : ∀ i, i < k - 1 → transport i = Except.error (e i))
    (hsucc : transport (k - 1) = Except.ok resp) :
    (make_request st ep transport pace).1
        = some (ApiResult.success ⟨ep.url, resp.status, resp.headers, resp.data⟩) ∧
    invokes (make_request st ep transport pace).2 = List.range k := by
  have h := requestLoop_success st.retry_count.toNat transport pace ep.url
    (pyUpper (ep.method.getD "GET")) e (k - 1) resp hsm hfail hsucc
    st.retry_count.toNat 0 (by omega) (by omega) (by omega)
  constructor
  · simp [make_request, h]
  · simp only [make_request, h, invokes_append, invokes_attemptsTrace, invokes,
      Nat.sub_zero]
    have hk : k = (k - 1) + 1 := by omega
    rw [hk]
    simp [List.range_succ, List.range_eq_range']

/-- Witness for C3: k = 2 with a transport failing once then succeeding. -/
theorem c3_success_at_k_witness :
    supportedMethod (pyUpper (wEp.method.getD "GET")) = true ∧
    (1 : Nat) ≤ 2 ∧ 2 ≤ (wSt 3).retry_count.toNat ∧
    (∀ i, i < 2 - 1 → wRetryT i = Except.error "boom") ∧
    wRetryT (2 - 1) = Except.ok wResp ∧
    ((make_request (wSt 3) wEp wRetryT wPace).1
        = some (ApiResult.success ⟨wEp.url, wResp.status, wResp.headers, wResp.data⟩) ∧
      invokes (make_request (wSt 3) wEp wRetryT wPace).2 = List.range 2) := by
  have hfail : ∀ i, i < 2 - 1 → wRetryT i = Except.error "boom" := by
    intro i hi
    have h0 : i = 0 := by omega
    subst h0
    rfl
  exact ⟨by decide, by decide, by decide, hfail, rfl,
    c3_success_at_k (wSt 3) wEp wRetryT wPace (fun _ => "boom") 2 wResp
      (by decide) (by decide) (by decide) hfail rfl⟩

/-- C4 (amended): if the operation fails on every attempt, the terminal
outcome is the error record carrying the url and the cause of the LAST
failure, and the number of attempts made equals retryLimit. (The record
itself does not carry the attempt count — see the counterexample — which
is what the claim as stated asserts.) -/
theorem c4_exhausted_record (st : AutomationState) (ep : Endpoint)
    (transport : Nat → Except String HttpResponse) (pace : Nat → ℚ)
    (e : Nat → String)
    (hsm : supportedMethod (pyUpper (ep.method.getD "GET")) = true)
    (hrc : 1 ≤ st.retry_count.toNat)
    (hfail : ∀ i, transport i = Except.error (e i)) :
    (make_request st ep transport pace).1
        = some (ApiResult.error ⟨ep.url, e (st.retry_count.toNat - 1)⟩) ∧
    (invokes (make_request st ep transport pace).2).length
        = st.retry_count.toNat := by
  have h := requestLoop_exhaust st.retry_count.toNat transport pace ep.url
    (pyUpper (ep.method.getD "GET")) e hsm hfail st.retry_count.toNat 0
    (by omega) hrc
  constructor
  · simp [make_request, h]
  · simp only [make_request, h, invokes_append, invokes_attemptsTrace, invokes]
    simp
    omega

/-- Witness for C4: retry 3 with an always-raising transport. -/
theorem c4_exhausted_record_witness :
    supportedMethod (pyUpper (wEp.method.getD "GET")) = true ∧
    1 ≤ (wSt 3).retry_count.toNat ∧
    (∀ i : Nat, wFailT i = Except.error "boom") ∧
    ((make_request (wSt 3) wEp wFailT wPace).1
        = some (ApiResult.error ⟨wEp.url, "boom"⟩) ∧
      (invokes (make_request (wSt 3) wEp wFailT wPace).2).length
        = (wSt 3).retry_count.toNat) :=
  ⟨by decide, by decide, fun _ => rfl,
    c4_exhausted_record (wSt 3) wEp wFailT wPace (fun _ => "boom")
      (by decide) (by decide) (fun _ => rfl)⟩

/-- Counterexample to C4 as stated: the terminal record of an exhausted
unit (retry 3, all attempts fail with "boom") is `{url: "u", error:
"boom"}`; neither of its two components renders the attempt count 3, so
the record does not carry the number of attempts made. -/
theorem c4_counterexample :
    (make_request (wSt 3) wEp wFailT wPace).1
        = some (ApiResult.error ⟨"u", "boom"⟩) ∧
    ¬ ErrorRecord.carriesCount ⟨"u", "boom"⟩ 3 := by
  constructor
  · rfl
  · intro h
    rcases h with h | h <;> simp [ErrorRecord.carriesCount] at h <;> revert h <;> decide

/-- C5 (amended): construction performs no validation and always
succeeds — for every configuration, valid or not, `__init__` returns the
state with the copied (or defaulted) values; invalid values are carried
into the run instead of failing construction. (The claim as stated —
construction fails on invalid values — is refuted by the
counterexample.) -/
theorem c5_init_never_fails (cfg : RawConfig) :
    APIAutomation.init cfg = Except.ok
      ⟨cfg.endpoints.getD [], cfg.concurrency.getD 5,
        cfg.retry.getD 3, cfg.delay_range.getD (1, 3)⟩ := rfl

/-- Counterexample to C5 as stated: a configuration that is invalid in
all three ways the claim lists (concurrency 0 is non-positive, retry -1
is negative, delay range (3,1) is inverted) is accepted at construction
— `__init__` returns the state instead of raising — and the invalid
retry limit then surfaces mid-run: `make_request` returns no outcome
(Python `None`). -/
theorem c5_counterexample :
    ((0 : Int) ≤ 0 ∧ (-1 : Int) < 0 ∧ (1 : ℚ) < 3) ∧
    APIAutomation.init ⟨some [wEp], some 0, some (-1), some (3, 1)⟩
        = Except.ok ⟨[wEp], 0, -1, (3, 1)⟩ ∧
    (make_request ⟨[wEp], 0, -1, (3, 1)⟩ wEp wOkT wPace).1 = none :=
  ⟨⟨le_refl 0, by norm_num, by norm_num⟩, rfl, rfl⟩

/-- C6: for every transport behavior, the backoff delays slept during a
unit's run are exactly `2 ^ a` time units for `a = 0, 1, …` up to the
second-to-last attempt made — one between each consecutive pair of
attempts and none after the final attempt (the number of attempts is the
number of pacing sleeps). -/
theorem c6_backoff_exponential (st : AutomationState) (ep : Endpoint)
    (transport : Nat → Except String HttpResponse) (pace : Nat → ℚ) :
    backoffs (make_request st ep transport pace).2
      = (List.range
            ((pacings (make_request st ep transport pace).2).length - 1)).map
          (fun a => (2 : ℚ) ^ a) := by
  have h := requestLoop_backoffs st.retry_count.toNat transport pace ep.url
    (pyUpper (ep.method.getD "GET")) st.retry_count.toNat 0 (by omega)
  simpa [make_request, List.range_eq_range'] using h

/-- C7 (amended): whenever at least one attempt is allowed
(retryLimit ≥ 1), each invocation of `make_request` returns exactly one
terminal outcome — it never falls through its attempt loop. (For
retryLimit = 0 the function returns no outcome at all: see the
counterexample.) -/
theorem c7_exactly_one_outcome (st : AutomationState) (ep : Endpoint)
    (transport : Nat → Except String HttpResponse) (pace : Nat → ℚ)
    (hrc : 1 ≤ st.retry_count.toNat) :
    ((make_request st ep transport pace).1).isSome = true := by
  have h := requestLoop_isSome st.retry_count.toNat transport pace ep.url
    (pyUpper (ep.method.getD "GET")) st.retry_count.toNat 0 (by omega) hrc
  simpa [make_request] using h

/-- Witness for C7: retry 1, an always-succeeding transport. -/
theorem c7_exactly_one_outcome_witness :
    1 ≤ (wSt 1).retry_count.toNat ∧
    ((make_request (wSt 1) wEp wOkT wPace).1).isSome = true :=
  ⟨by decide, c7_exactly_one_outcome (wSt 1) wEp wOkT wPace (by decide)⟩

/-- Counterexample to C7 as stated: with retryLimit = 0 the attempt loop
body never runs and `make_request` returns Python `None` — no terminal
outcome — even for an operation that would succeed immediately. -/
theorem c7_counterexample :
    (make_request (wSt 0) wEp wOkT wPace).1 = none := rfl

/-- C9 (amended): in the API executor `make_request`, every transport
invocation — on the initial attempt and on every retry alike — is
immediately preceded by a pacing sleep drawn by `random.uniform` from
the configured delay range (every draw lies in `[min, max]` of
`delay_range` when the draws do, which `random.uniform` guarantees).
(The claim as stated, taken over the async scraper's units too, is
false: `scrape_async` applies no pacing delay — see the
counterexample.) -/
theorem c9_pacing_every_attempt (st : AutomationState) (ep : Endpoint)
    (transport : Nat → Except String HttpResponse) (pace : Nat → ℚ)
    (hp : ∀ i, st.delay_range.1 ≤ pace i ∧ pace i ≤ st.delay_range.2) :
    pacedList st.delay_range.1 st.delay_range.2
      (make_request st ep transport pace).2 = true := by
  have h := requestLoop_paced st.retry_count.toNat transport pace ep.url
    (pyUpper (ep.method.getD "GET")) st.delay_range.1 st.delay_range.2 hp
    st.retry_count.toNat 0
  simpa [make_request] using h

/-- Witness for C9: two attempts of a failing transport with constant
in-range draw 2 from the range (1, 3). -/
theorem c9_pacing_every_attempt_witness :
    (∀ i : Nat, (wSt 2).delay_range.1 ≤ wPace i ∧ wPace i ≤ (wSt 2).delay_range.2) ∧
    pacedList (wSt 2).delay_range.1 (wSt 2).delay_range.2
      (make_request (wSt 2) wEp wFailT wPace).2 = true := by
  have hp : ∀ i : Nat, (wSt 2).delay_range.1 ≤ wPace i ∧ wPace i ≤ (wSt 2).delay_range.2 :=
    fun _ => ⟨by norm_num [wSt, wPace], by norm_num [wSt, wPace]⟩
  exact ⟨hp, c9_pacing_every_attempt (wSt 2) wEp wFailT wPace hp⟩

/-- Counterexample to C9 as stated: the async scraper's per-unit `fetch`
(cited by the claim) applies no pacing delay before any attempt — a run
of two failing attempts sleeps only the backoff, records no pacing
event, and its first attempt is invoked with no pacing sleep before
it. -/
theorem c9_counterexample :
    (scrapeFetch 2 wFailOp "u").2
        = [Event.invoke 0, Event.backoff ((2 : ℚ) ^ (0 : Nat)), Event.invoke 1] ∧
    pacings (scrapeFetch 2 wFailOp "u").2 = [] ∧
    pacedList 1 3 (scrapeFetch 2 wFailOp "u").2 = false :=
  ⟨rfl, rfl, rfl⟩

/-- C10: an endpoint whose upper-cased method is unsupported is not
failed fast: the `ValueError` raised inside the attempt is caught and
classified as an ordinary per-attempt failure, the transport is never
invoked, the unit is retried the full retryLimit times (one pacing sleep
per attempt) with exponential backoff between attempts, and the terminal
outcome is the error record carrying the unsupported-method message. -/
theorem c10_unsupported_method_retried (st : AutomationState) (ep : Endpoint)
    (transport : Nat → Except String HttpResponse) (pace : Nat → ℚ)
    (hsm : supportedMethod (pyUpper (ep.method.getD "GET")) = false)
    (hrc : 1 ≤ st.retry_count.toNat) :
    (make_request st ep transport pace).1
        = some (ApiResult.error
            ⟨ep.url, "Unsupported HTTP method: " ++ pyUpper (ep.method.getD "GET")⟩) ∧
    invokes (make_request st ep transport pace).2 = [] ∧
    (pacings (make_request st ep transport pace).2).length
        = st.retry_count.toNat ∧
    backoffs (make_request st ep transport pace).2
      = (List.range (st.retry_count.toNat - 1)).map (fun a => (2 : ℚ) ^ a) := by
  have h := requestLoop_unsupported st.retry_count.toNat transport pace ep.url
    (pyUpper (ep.method.getD "GET")) hsm st.retry_count.toNat 0 (by omega) hrc
  refine ⟨?_, ?_, ?_, ?_⟩
  · simp [make_request, h]
  · simp [make_request, h, invokes_append, invokes_unsupportedTrace, invokes]
  · simp only [make_request, h, pacings_append, pacings_unsupportedTrace, pacings]
    simp
    omega
  · simp [make_request, h, backoffs_append, backoffs_unsupportedTrace, backoffs,
      List.range_eq_range']

/-- Witness for C10: a PATCH endpoint with retry 3. -/
theorem c10_unsupported_method_retried_witness :
    supportedMethod (pyUpper (wEpPatch.method.getD "GET")) = false ∧
    1 ≤ (wSt 3).retry_count.toNat ∧
    ((make_request ⟨[wEpPatch], 2, 3, (1, 3)⟩ wEpPatch wOkT wPace).1
        = some (ApiResult.error ⟨"u", "Unsupported HTTP method: PATCH"⟩) ∧
      invokes (make_request ⟨[wEpPatch], 2, 3, (1, 3)⟩ wEpPatch wOkT wPace).2 = [] ∧
      (pacings (make_request ⟨[wEpPatch], 2, 3, (1, 3)⟩ wEpPatch wOkT wPace).2).length = 3 ∧
      backoffs (make_request ⟨[wEpPatch], 2, 3, (1, 3)⟩ wEpPatch wOkT wPace).2
        = (List.range 2).map (fun a => (2 : ℚ) ^ a)) :=
  ⟨by decide, by decide,
    c10_unsupported_method_retried ⟨[wEpPatch], 2, 3, (1, 3)⟩ wEpPatch wOkT wPace
      (by decide) (by decide)⟩

end HexAutomation
